import Mathlib

/-!
Shallow embedding of the `chdbdriver` package (src/driver/driver.go) of the
loicalleyne/chdbsession repository, together with models of the two row
cursors (`arrowRows`, `parquetRows`).  The cursor implementations themselves
live in a rows file that is not part of src/ — only their construction sites
in `PrepareRows` are — so the cursor step functions are modelled from the
specification (§4.2–§4.4) and are marked as such in their doc comments.
Everything else is translated directly from src/driver/driver.go.

Rows are abstracted to an opaque value type `α`: the claims under study are
about counts, order, buffering and lifecycle, not about per-column decoding.
Go errors are modelled as `String` (matching the source's reliance on exact
error-message comparison), fallible operations return `Except String _`.
-/

namespace Chdb

/-- Outcome of one `Next` call on a row cursor: a decoded row, the normal
EndOfData signal (`io.EOF` in Go), or the use-after-close error. -/
inductive NextResult (α : Type) where
  | row (r : α)
  | endOfData
  | useAfterClose
  deriving DecidableEq, Repr

/-- Modelled from the spec: the `arrowRows` cursor (its rows file is not under
src/; src/driver/driver.go:56 only constructs it).  Per spec §4.3 the IPC
container is a sequence of self-contained record batches; `batches` are the
ones not yet loaded, `cur` the unread rows of the currently loaded batch.
`releases` counts releases of the underlying reader and result buffer. -/
structure ArrowRows (α : Type) where
  batches : List (List α)
  cur : List α
  closed : Bool
  exhausted : Bool
  releases : Nat
  deriving DecidableEq, Repr

/-- Cursor state produced by opening an Arrow buffer whose record batches
decode to `batches` (src/driver/driver.go:52-56: no batch is read yet). -/
def arrowOpen {α : Type} (batches : List (List α)) : ArrowRows α :=
  { batches := batches, cur := [], closed := false, exhausted := false,
    releases := 0 }

/-- Fetch the next row: from the current batch if it still has one, otherwise
from the first subsequent non-empty batch.  Returns the row, the rest of the
now-current batch and the remaining batches; `none` when no row is left. -/
def popRow {α : Type} : List α → List (List α) → Option (α × List α × List (List α))
  | r :: rest, bs => some (r, rest, bs)
  | [], [] => none
  | [], b :: bs => popRow b bs

/-- Modelled from the spec (§4.3 steps 2–3): one `Next` step of the Arrow
cursor.  After Close it fails with use-after-close; at the end of the
container it sets `exhausted` and reports EndOfData. -/
def arrowNext {α : Type} (s : ArrowRows α) : NextResult α × ArrowRows α :=
  if s.closed then (.useAfterClose, s)
  else
    match popRow s.cur s.batches with
    | some (r, cur2, bs2) => (.row r, { s with cur := cur2, batches := bs2 })
    | none => (.endOfData, { s with cur := [], batches := [], exhausted := true })

/-- Modelled from the spec (§4.2 Close): the first call releases the reader
and the result buffer, later calls are no-ops; every call returns success
(`none`, i.e. a nil Go error). -/
def arrowClose {α : Type} (s : ArrowRows α) : Option String × ArrowRows α :=
  if s.closed then (none, s)
  else (none, { s with closed := true, releases := s.releases + 1 })

/-- Trace of the results of `n` consecutive `Next` calls. -/
def arrowRun {α : Type} (s : ArrowRows α) : Nat → List (NextResult α)
  | 0 => []
  | n + 1 =>
    let p := arrowNext s
    p.1 :: arrowRun p.2 n

/-- State reached after `n` consecutive `Close` calls. -/
def arrowCloseIter {α : Type} (s : ArrowRows α) : Nat → ArrowRows α
  | 0 => s
  | n + 1 => arrowCloseIter (arrowClose s).2 n

/-- The rows the cursor has not yet produced. -/
def ArrowRows.rowsLeft {α : Type} (s : ArrowRows α) : List α :=
  s.cur ++ s.batches.flatten

theorem popRow_none {α : Type} :
    ∀ (bs : List (List α)) (cur : List α),
      popRow cur bs = none → cur ++ bs.flatten = [] := by
  intro bs
  induction bs with
  | nil =>
    intro cur h
    cases cur with
    | nil => simp
    | cons r rest => simp [popRow] at h
  | cons b bs ih =>
    intro cur h
    cases cur with
    | nil =>
      simp only [popRow] at h
      simpa using ih b h
    | cons r rest => simp [popRow] at h

theorem popRow_some {α : Type} :
    ∀ (bs : List (List α)) (cur : List α) (r : α) (cur2 : List α)
      (bs2 : List (List α)),
      popRow cur bs = some (r, cur2, bs2) →
      cur ++ bs.flatten = r :: (cur2 ++ bs2.flatten) := by
  intro bs
  induction bs with
  | nil =>
    intro cur r cur2 bs2 h
    cases cur with
    | nil => simp [popRow] at h
    | cons x rest =>
      simp [popRow] at h
      obtain ⟨h1, h2, h3⟩ := h
      subst h1; subst h2; subst h3; simp
  | cons b bs ih =>
    intro cur r cur2 bs2 h
    cases cur with
    | nil =>
      simp only [popRow] at h
      simpa using ih b r cur2 bs2 h
    | cons x rest =>
      simp [popRow] at h
      obtain ⟨h1, h2, h3⟩ := h
      subst h1; subst h2; subst h3; simp

/-- Invariant trace lemma: from any open Arrow cursor state, `n` calls to
`Next` produce exactly the remaining rows in order, padded with EndOfData. -/
theorem arrowRun_eq {α : Type} :
    ∀ (n : Nat) (s : ArrowRows α), s.closed = false →
      arrowRun s n =
        (s.rowsLeft.take n).map NextResult.row
          ++ List.replicate (n - s.rowsLeft.length) NextResult.endOfData := by
  intro n
  induction n with
  | zero => intro s _; simp [arrowRun]
  | succ n ih =>
    intro s hs
    have hnext : arrowNext s =
        match popRow s.cur s.batches with
        | some (r, cur2, bs2) => (.row r, { s with cur := cur2, batches := bs2 })
        | none => (.endOfData, { s with cur := [], batches := [], exhausted := true }) := by
      simp [arrowNext, hs]
    cases hp : popRow s.cur s.batches with
    | none =>
      have hleft : s.rowsLeft = [] := popRow_none _ _ hp
      rw [hp] at hnext
      have h2 := ih { s with cur := [], batches := [], exhausted := true } (by simpa using hs)
      simp only [arrowRun, hnext]
      rw [h2]
      have hz : ({ s with cur := [], batches := [], exhausted := true } : ArrowRows α).rowsLeft = [] := by
        simp [ArrowRows.rowsLeft]
      rw [hz, hleft]
      simp [List.replicate_succ]
    | some p =>
      obtain ⟨r, cur2, bs2⟩ := p
      have hleft : s.rowsLeft = r :: (cur2 ++ bs2.flatten) := popRow_some _ _ _ _ _ hp
      rw [hp] at hnext
      have h2 := ih { s with cur := cur2, batches := bs2 } (by simpa using hs)
      simp only [arrowRun, hnext]
      rw [h2]
      simp only [ArrowRows.rowsLeft] at hleft ⊢
      rw [hleft]
      simp [List.take_succ_cons, Nat.succ_sub_succ]

/-- C1: over a well-formed Arrow streaming buffer whose record batches hold
`N = batches.flatten.length` rows in total, the trace of any number `n` of
consecutive `Next` calls is exactly the first `n` of: the `N` buffer rows in
order (each a success, none skipped or duplicated), followed by EndOfData
forever — so the `(N+1)`-th call and every later call return EndOfData. -/
theorem arrow_cursor_yields_each_row_once_then_endOfData {α : Type}
    (batches : List (List α)) (n : Nat) :
    arrowRun (arrowOpen batches) n =
      (batches.flatten.take n).map NextResult.row
        ++ List.replicate (n - batches.flatten.length) NextResult.endOfData := by
  have h := arrowRun_eq n (arrowOpen batches) rfl
  simpa [ArrowRows.rowsLeft, arrowOpen] using h

/-- Modelled from the spec: the `parquetRows` cursor (its rows file is not
under src/; src/driver/driver.go:58-63 only constructs it).  Per spec §4.4 it
keeps a staging buffer refilled from the underlying parquet reader in batches
of up to `bufferSize` rows.  `pending` are the rows the underlying reader has
not yet delivered, `staging` the staged rows not yet handed to the caller.
`reads` counts every read request issued to the underlying reader and
`emptyReads` the subset of those that returned zero rows; `releases` counts
releases of the underlying reader and result buffer.  `bufferSize` is a Go
`int`, so it is an `Int` here (a non-positive size is degenerate). -/
structure ParquetRows (α : Type) where
  pending : List α
  staging : List α
  bufferSize : Int
  needNewBuffer : Bool
  useUnsafeStringReader : Bool
  closed : Bool
  exhausted : Bool
  reads : Nat
  emptyReads : Nat
  releases : Nat
  deriving DecidableEq, Repr

/-- Cursor state built by `PrepareRows` for the PARQUET driver type
(src/driver/driver.go:59-63): `needNewBuffer` starts `true`, nothing has been
read from the buffer yet. -/
def parquetOpen {α : Type} (rows : List α) (bufSize : Int) (useUnsafe : Bool) :
    ParquetRows α :=
  { pending := rows, staging := [], bufferSize := bufSize,
    needNewBuffer := true, useUnsafeStringReader := useUnsafe,
    closed := false, exhausted := false, reads := 0, emptyReads := 0,
    releases := 0 }

/-- Modelled from the spec (§4.4 steps 1–3): one `Next` step of the Parquet
cursor.  When `needNewBuffer` is set it requests up to `bufferSize` rows from
the underlying reader; zero rows returned sets `exhausted` and reports
EndOfData; otherwise the first staged row is handed out, `needNewBuffer` is
cleared and is set again exactly when the staging buffer has been fully
consumed. -/
def parquetNext {α : Type} (s : ParquetRows α) : NextResult α × ParquetRows α :=
  if s.closed then (.useAfterClose, s)
  else if s.exhausted then (.endOfData, s)
  else if s.needNewBuffer then
    match s.pending.take s.bufferSize.toNat with
    | [] =>
      (.endOfData, { s with pending := s.pending.drop s.bufferSize.toNat,
                            reads := s.reads + 1, emptyReads := s.emptyReads + 1,
                            exhausted := true })
    | r :: rest =>
      (.row r, { s with pending := s.pending.drop s.bufferSize.toNat,
                        reads := s.reads + 1, staging := rest,
                        needNewBuffer := rest.isEmpty })
  else
    match s.staging with
    | r :: rest => (.row r, { s with staging := rest, needNewBuffer := rest.isEmpty })
    | [] => (.endOfData, { s with exhausted := true })

/-- Modelled from the spec (§4.2 Close), as for the Arrow variant. -/
def parquetClose {α : Type} (s : ParquetRows α) : Option String × ParquetRows α :=
  if s.closed then (none, s)
  else (none, { s with closed := true, releases := s.releases + 1 })

/-- Trace of the results of `n` consecutive `Next` calls. -/
def parquetRun {α : Type} (s : ParquetRows α) : Nat → List (NextResult α)
  | 0 => []
  | n + 1 =>
    let p := parquetNext s
    p.1 :: parquetRun p.2 n

/-- State reached after `n` consecutive `Next` calls. -/
def parquetIter {α : Type} (s : ParquetRows α) : Nat → ParquetRows α
  | 0 => s
  | n + 1 => parquetIter (parquetNext s).2 n

/-- State reached after `n` consecutive `Close` calls. -/
def parquetCloseIter {α : Type} (s : ParquetRows α) : Nat → ParquetRows α
  | 0 => s
  | n + 1 => parquetCloseIter (parquetClose s).2 n

/-- Once `exhausted` is set, every further `Next` returns EndOfData and
leaves the state unchanged. -/
theorem parquetRun_exhausted {α : Type} :
    ∀ (n : Nat) (s : ParquetRows α), s.closed = false → s.exhausted = true →
      parquetRun s n = List.replicate n NextResult.endOfData := by
  intro n
  induction n with
  | zero => intro s _ _; simp [parquetRun]
  | succ n ih =>
    intro s hc he
    have hnext : parquetNext s = (.endOfData, s) := by
      simp [parquetNext, hc, he]
    simp [parquetRun, hnext, ih s hc he, List.replicate_succ]

/-- Invariant trace lemma for the Parquet cursor: from any open,
non-exhausted state whose `needNewBuffer` flag agrees with the staging buffer
being empty, and whose configured batch size is positive, `n` calls to `Next`
produce exactly the remaining rows (staged ones first) in order, padded with
EndOfData. -/
theorem parquetRun_eq {α : Type} :
    ∀ (n : Nat) (s : ParquetRows α), s.closed = false → s.exhausted = false →
      s.needNewBuffer = s.staging.isEmpty → 0 < s.bufferSize →
      parquetRun s n =
        ((s.staging ++ s.pending).take n).map NextResult.row
          ++ List.replicate (n - (s.staging ++ s.pending).length) NextResult.endOfData := by
  intro n
  induction n with
  | zero => intro s _ _ _ _; simp [parquetRun]
  | succ n ih =>
    intro s hc he hnb hB
    cases hst : s.staging with
    | cons r rest =>
      have hnb2 : s.needNewBuffer = false := by rw [hnb, hst]; rfl
      have hnext : parquetNext s =
          (.row r, { s with staging := rest, needNewBuffer := rest.isEmpty }) := by
        simp [parquetNext, hc, he, hnb2, hst]
      have h2 := ih { s with staging := rest, needNewBuffer := rest.isEmpty } hc he rfl hB
      simp only [parquetRun, hnext]
      rw [h2]
      simp only [hst]
      simp [List.take_succ_cons, Nat.succ_sub_succ]
    | nil =>
      have hnb2 : s.needNewBuffer = true := by rw [hnb, hst]; rfl
      cases hp : s.pending with
      | nil =>
        have hnext : parquetNext s =
            (.endOfData, { s with pending := [],
                                  reads := s.reads + 1,
                                  emptyReads := s.emptyReads + 1,
                                  exhausted := true }) := by
          simp [parquetNext, hc, he, hnb2, hp]
        have h2 := parquetRun_exhausted n
          { s with pending := [], reads := s.reads + 1,
                   emptyReads := s.emptyReads + 1, exhausted := true } hc rfl
        simp only [parquetRun, hnext]
        rw [h2]
        simp [List.replicate_succ]
      | cons p ps =>
        obtain ⟨k, hk⟩ : ∃ k, s.bufferSize.toNat = k + 1 :=
          ⟨s.bufferSize.toNat - 1, by omega⟩
        have hnext : parquetNext s =
            (.row p, { s with pending := ps.drop k,
                              reads := s.reads + 1,
                              staging := ps.take k,
                              needNewBuffer := (ps.take k).isEmpty }) := by
          simp [parquetNext, hc, he, hnb2, hp, hk]
        have h2 := ih { s with pending := ps.drop k, reads := s.reads + 1,
                               staging := ps.take k,
                               needNewBuffer := (ps.take k).isEmpty } hc he rfl hB
        simp only [parquetRun, hnext]
        rw [h2]
        simp [List.take_append_drop, List.take_succ_cons, Nat.succ_sub_succ]

/-- Ceiling division on naturals: the number of batches of size `b` needed to
cover `n` rows. -/
def ceilDiv (n b : Nat) : Nat := (n + b - 1) / b

theorem ceilDiv_zero (b : Nat) : ceilDiv 0 b = 0 := by
  unfold ceilDiv
  rcases Nat.eq_zero_or_pos b with hb | hb
  · simp [hb]
  · exact Nat.div_eq_of_lt (by omega)

theorem ceilDiv_rec {n b : Nat} (hb : 0 < b) (hn : 0 < n) :
    ceilDiv n b = ceilDiv (n - b) b + 1 := by
  rcases Nat.lt_or_ge b n with h | h
  · unfold ceilDiv
    have h1 : n + b - 1 = (n - b + b - 1) + b := by omega
    rw [h1, Nat.add_div_right _ hb]
  · have h1 : n - b = 0 := by omega
    rw [h1, ceilDiv_zero]
    unfold ceilDiv
    have h2 : n + b - 1 = (n - 1) + b := by omega
    rw [h2, Nat.add_div_right _ hb, Nat.div_eq_of_lt (by omega : n - 1 < b)]

theorem parquetIter_add {α : Type} :
    ∀ (m n : Nat) (s : ParquetRows α),
      parquetIter s (m + n) = parquetIter (parquetIter s m) n := by
  intro m
  induction m with
  | zero => intro n s; simp [parquetIter]
  | succ m ih =>
    intro n s
    have h : m + 1 + n = (m + n) + 1 := by omega
    rw [h]
    simp only [parquetIter]
    exact ih n (parquetNext s).2

/-- Draining the staging buffer: while staged rows remain, `Next` hands them
out without touching the underlying reader; after `staging.length` calls the
staging buffer is empty and `needNewBuffer` is set again. -/
theorem parquet_drain {α : Type} :
    ∀ (l : List α) (s : ParquetRows α),
      s.closed = false → s.exhausted = false → s.staging = l →
      s.needNewBuffer = l.isEmpty →
      parquetIter s l.length = { s with staging := [], needNewBuffer := true } := by
  intro l
  induction l with
  | nil =>
    intro s hc he hst hnb
    simp only [List.length_nil, parquetIter]
    cases s
    simp_all
  | cons x xs ih =>
    intro s hc he hst hnb
    have hnb2 : s.needNewBuffer = false := by rw [hnb]; rfl
    have hnext : parquetNext s =
        (.row x, { s with staging := xs, needNewBuffer := xs.isEmpty }) := by
      simp [parquetNext, hc, he, hnb2, hst]
    simp only [List.length_cons, parquetIter, hnext]
    exact ih { s with staging := xs, needNewBuffer := xs.isEmpty } hc he rfl rfl

/-- Read-count lemma: starting from a state with an empty staging buffer and
`needNewBuffer` set, consuming all `N` pending rows and receiving the first
EndOfData (`N + 1` calls) issues `ceilDiv N bufferSize` reads that return
rows plus exactly one zero-row read, and leaves the cursor exhausted. -/
theorem parquetIter_reads {α : Type} :
    ∀ (N : Nat) (rows : List α) (s : ParquetRows α),
      rows.length = N →
      s.closed = false → s.exhausted = false → s.staging = [] →
      s.needNewBuffer = true → s.pending = rows → 0 < s.bufferSize →
      (parquetIter s (N + 1)).reads
          = s.reads + ceilDiv N s.bufferSize.toNat + 1 ∧
      (parquetIter s (N + 1)).emptyReads = s.emptyReads + 1 ∧
      (parquetIter s (N + 1)).exhausted = true := by
  intro N
  induction N using Nat.strong_induction_on with
  | _ N ih =>
    intro rows s hlen hc he hst hnb hp hB
    cases rows with
    | nil =>
      have hN : N = 0 := by simpa using hlen.symm
      subst hN
      have hnext : parquetNext s =
          (.endOfData, { s with pending := [],
                                reads := s.reads + 1,
                                emptyReads := s.emptyReads + 1,
                                exhausted := true }) := by
        simp [parquetNext, hc, he, hnb, hp]
      simp [parquetIter, hnext, ceilDiv_zero]
    | cons p ps =>
      have hN : N = ps.length + 1 := by simpa using hlen.symm
      obtain ⟨k, hk⟩ : ∃ k, s.bufferSize.toNat = k + 1 :=
        ⟨s.bufferSize.toNat - 1, by omega⟩
      have hnext : parquetNext s =
          (.row p, { s with pending := ps.drop k,
                            reads := s.reads + 1,
                            staging := ps.take k,
                            needNewBuffer := (ps.take k).isEmpty }) := by
        simp [parquetNext, hc, he, hnb, hp, hk]
      have hdrain := parquet_drain (ps.take k)
        { s with pending := ps.drop k, reads := s.reads + 1,
                 staging := ps.take k,
                 needNewBuffer := (ps.take k).isEmpty } hc he rfl rfl
      have hsplit : N + 1 = 1 + ((ps.take k).length + ((ps.drop k).length + 1)) := by
        simp only [List.length_take, List.length_drop]
        omega
      have hih := ih (ps.drop k).length (by simp only [List.length_drop]; omega)
        (ps.drop k)
        { s with pending := ps.drop k, reads := s.reads + 1,
                 staging := ([] : List α), needNewBuffer := true }
        rfl hc he rfl rfl rfl hB
      simp only at hih
      have h1 : parquetIter s 1 =
          { s with pending := ps.drop k, reads := s.reads + 1,
                   staging := ps.take k,
                   needNewBuffer := (ps.take k).isEmpty } := by
        simp [parquetIter, hnext]
      have hchain : parquetIter s (N + 1) =
          parquetIter
            { s with pending := ps.drop k, reads := s.reads + 1,
                     staging := ([] : List α), needNewBuffer := true }
            ((ps.drop k).length + 1) := by
        rw [hsplit,
          parquetIter_add 1 ((ps.take k).length + ((ps.drop k).length + 1)) s,
          h1,
          parquetIter_add (ps.take k).length ((ps.drop k).length + 1) _,
          hdrain]
      rw [hchain]
      have hceil : ceilDiv N s.bufferSize.toNat
          = ceilDiv (ps.drop k).length s.bufferSize.toNat + 1 := by
        have := ceilDiv_rec (n := N) (b := s.bufferSize.toNat) (by omega) (by omega)
        have hsub : N - s.bufferSize.toNat = (ps.drop k).length := by
          simp only [List.length_drop]
          omega
        rw [hsub] at this
        exact this
      rw [hceil]
      obtain ⟨hr, hemp, hex⟩ := hih
      refine ⟨?_, ?_, hex⟩
      · rw [hr]; omega
      · rw [hemp]

/-- C2 counterexample to the claim as stated: for a one-row buffer with
staging capacity `B = 1`, running the cursor to its first EndOfData
(2 `Next` calls) issues 2 read requests to the underlying reader, not
`ceil(1/1) = 1`: detecting exhaustion costs one extra, zero-row read. -/
theorem parquet_reads_exceed_ceil_counterexample :
    (parquetIter (parquetOpen [(0 : Int)] 1 false) 2).reads = 2 ∧
      ceilDiv 1 1 = 1 := by
  constructor <;> rfl

/-- C2 amended: for every well-formed file-container buffer with `N` rows and
any staging capacity `B ≥ 1`, the trace of `Next` results is the `N` rows in
order followed by EndOfData forever — an expression independent of `B`, so
batching is transparent to row values and order — and by the time the first
EndOfData has been returned (`N + 1` calls) the cursor has issued exactly
`ceil(N / B)` reads that returned rows plus exactly one zero-row read that
signalled exhaustion (`ceil(N / B) + 1` read requests in total). -/
theorem parquet_batching_transparent_and_read_count {α : Type}
    (rows : List α) (B : Int) (u : Bool) (n : Nat) (hB : 0 < B) :
    parquetRun (parquetOpen rows B u) n =
      (rows.take n).map NextResult.row
        ++ List.replicate (n - rows.length) NextResult.endOfData ∧
    (parquetIter (parquetOpen rows B u) (rows.length + 1)).reads
        = ceilDiv rows.length B.toNat + 1 ∧
    (parquetIter (parquetOpen rows B u) (rows.length + 1)).emptyReads = 1 := by
  have htrace := parquetRun_eq n (parquetOpen rows B u) rfl rfl rfl hB
  have hreads := parquetIter_reads rows.length rows (parquetOpen rows B u)
    rfl rfl rfl rfl rfl rfl hB
  refine ⟨?_, ?_, ?_⟩
  · simpa [parquetOpen] using htrace
  · simpa [parquetOpen] using hreads.1
  · simpa [parquetOpen] using hreads.2.1

/-- Witness for the amended C2 at `rows = [10, 20, 30]`, `B = 2`, `n = 5`:
the trace is the three rows then EndOfData twice, with `ceil(3/2) + 1 = 3`
reads issued, one of them empty. -/
theorem parquet_batching_transparent_and_read_count_witness :
    parquetRun (parquetOpen [(10 : Int), 20, 30] 2 false) 5 =
      [NextResult.row 10, NextResult.row 20, NextResult.row 30,
        NextResult.endOfData, NextResult.endOfData] ∧
    (parquetIter (parquetOpen [(10 : Int), 20, 30] 2 false) 4).reads = 3 ∧
    (parquetIter (parquetOpen [(10 : Int), 20, 30] 2 false) 4).emptyReads = 1 := by
  have h := parquet_batching_transparent_and_read_count
    [(10 : Int), 20, 30] 2 false 5 (by decide)
  obtain ⟨h1, h2, h3⟩ := h
  refine ⟨?_, h2, h3⟩
  simpa using h1

theorem arrowClose_closed {α : Type} (s : ArrowRows α) (h : s.closed = true) :
    arrowClose s = (none, s) := by
  simp [arrowClose, h]

theorem parquetClose_closed {α : Type} (s : ParquetRows α) (h : s.closed = true) :
    parquetClose s = (none, s) := by
  simp [parquetClose, h]

/-- C3: on either cursor variant, once `Close` has been called (on any state),
a subsequent `Next` returns the distinct use-after-close error — by
constructor disjointness of `NextResult` it is neither EndOfData nor a
decoded row. -/
theorem next_after_close_reports_use_after_close {α : Type}
    (s : ArrowRows α) (t : ParquetRows α) :
    (arrowNext (arrowClose s).2).1 = NextResult.useAfterClose ∧
    (parquetNext (parquetClose t).2).1 = NextResult.useAfterClose := by
  constructor
  · have h : (arrowClose s).2.closed = true := by
      by_cases hc : s.closed = true
      · simp [arrowClose, hc]
      · simp [arrowClose, hc]
    simp [arrowNext, h]
  · have h : (parquetClose t).2.closed = true := by
      by_cases hc : t.closed = true
      · simp [parquetClose, hc]
      · simp [parquetClose, hc]
    simp [parquetNext, h]

theorem arrowCloseIter_of_closed {α : Type} :
    ∀ (n : Nat) (s : ArrowRows α), s.closed = true → arrowCloseIter s n = s := by
  intro n
  induction n with
  | zero => intro s _; rfl
  | succ n ih =>
    intro s h
    simp only [arrowCloseIter, arrowClose_closed s h]
    exact ih s h

theorem parquetCloseIter_of_closed {α : Type} :
    ∀ (n : Nat) (s : ParquetRows α), s.closed = true → parquetCloseIter s n = s := by
  intro n
  induction n with
  | zero => intro s _; rfl
  | succ n ih =>
    intro s h
    simp only [parquetCloseIter, parquetClose_closed s h]
    exact ih s h

/-- C4: on either freshly constructed cursor, `Close` is idempotent: every
call (on any state at all) returns success, the state after `n + 1` calls
equals the state after the first call (subsequent calls are no-ops), and the
underlying reader and buffer have been released exactly once after any
positive number of calls. -/
theorem close_idempotent_single_release {α : Type}
    (batches : List (List α)) (rows : List α) (B : Int) (u : Bool) (n : Nat) :
    (∀ s : ArrowRows α, (arrowClose s).1 = none) ∧
    (∀ t : ParquetRows α, (parquetClose t).1 = none) ∧
    arrowCloseIter (arrowOpen batches) (n + 1)
      = arrowCloseIter (arrowOpen batches) 1 ∧
    parquetCloseIter (parquetOpen rows B u) (n + 1)
      = parquetCloseIter (parquetOpen rows B u) 1 ∧
    (arrowCloseIter (arrowOpen batches) (n + 1)).releases = 1 ∧
    (parquetCloseIter (parquetOpen rows B u) (n + 1)).releases = 1 := by
  have ha1 : arrowCloseIter (arrowOpen batches) 1
      = { arrowOpen batches with closed := true, releases := 1 } := by
    simp [arrowCloseIter, arrowClose, arrowOpen]
  have hp1 : parquetCloseIter (parquetOpen rows B u) 1
      = { parquetOpen rows B u with closed := true, releases := 1 } := by
    simp [parquetCloseIter, parquetClose, parquetOpen]
  have han : arrowCloseIter (arrowOpen batches) (n + 1)
      = { arrowOpen batches with closed := true, releases := 1 } := by
    simp only [arrowCloseIter]
    have hstep : (arrowClose (arrowOpen batches)).2
        = { arrowOpen batches with closed := true, releases := 1 } := by
      simp [arrowClose, arrowOpen]
    rw [hstep]
    exact arrowCloseIter_of_closed n _ rfl
  have hpn : parquetCloseIter (parquetOpen rows B u) (n + 1)
      = { parquetOpen rows B u with closed := true, releases := 1 } := by
    simp only [parquetCloseIter]
    have hstep : (parquetClose (parquetOpen rows B u)).2
        = { parquetOpen rows B u with closed := true, releases := 1 } := by
      simp [parquetClose, parquetOpen]
    rw [hstep]
    exact parquetCloseIter_of_closed n _ rfl
  refine ⟨?_, ?_, ?_, ?_, ?_, ?_⟩
  · intro s; by_cases h : s.closed = true <;> simp [arrowClose, h]
  · intro t; by_cases h : t.closed = true <;> simp [parquetClose, h]
  · rw [han, ha1]
  · rw [hpn, hp1]
  · rw [han]
  · rw [hpn]

/-- Type `DriverType` from src/driver/driver.go:20-26: a Go `int` with
`ARROW = iota = 0`, `PARQUET = 1`, `INVALID = 2`; arbitrary integer values
are representable, as in Go. -/
abbrev DriverType := Int

def ARROW : DriverType := 0

def PARQUET : DriverType := 1

def INVALID : DriverType := 2

/-- Option keys and the default staging capacity, src/driver/driver.go:28-35. -/
def sessionOptionKey : String := "session"

def udfPathOptionKey : String := "udfPath"

def driverTypeKey : String := "driverType"

def useUnsafeStringReaderKey : String := "useUnsafeStringReader"

def driverBufferSizeKey : String := "bufferSize"

def defaultBufferSize : Int := 512

/-- Method `DriverType.String`, src/driver/driver.go:37-47. -/
def driverTypeString (d : DriverType) : String :=
  if d = ARROW then "Arrow"
  else if d = PARQUET then "Parquet"
  else if d = INVALID then "Invalid"
  else ""

/-- Go `strings.ToUpper`, mapped over the characters of the string. -/
def toUpperStr (s : String) : String :=
  ⟨s.data.map Char.toUpper⟩

/-- Go `strings.ToLower`, mapped over the characters of the string. -/
def toLowerStr (s : String) : String :=
  ⟨s.data.map Char.toLower⟩

/-- Accumulate the decimal value of a digit run; `none` on any non-digit. -/
def digitsVal : List Char → Nat → Option Nat
  | [], acc => some acc
  | c :: rest, acc =>
    if c.isDigit then digitsVal rest (acc * 10 + (c.toNat - 48)) else none

/-- Go `strconv.Atoi`: an optional sign followed by a non-empty digit run;
everything else is an error (`none`).  The `int` range check of `Atoi` is not
modelled. -/
def atoi (s : String) : Option Int :=
  match s.data with
  | [] => none
  | '-' :: rest =>
    match rest with
    | [] => none
    | _ => (digitsVal rest 0).map (fun n => -(n : Int))
  | '+' :: rest =>
    match rest with
    | [] => none
    | _ => (digitsVal rest 0).map (fun n => (n : Int))
  | l => (digitsVal l 0).map (fun n => (n : Int))

/-- Function `parseDriverType`, src/driver/driver.go:68-76. -/
def parseDriverType (s : String) : DriverType :=
  if toUpperStr s = "ARROW" then ARROW
  else if toUpperStr s = "PARQUET" then PARQUET
  else INVALID

/-- The opaque result byte buffer, modelled by its decoded content under each
format: `arrowBatches = some bs` when `ipc.NewFileReader` succeeds on the
bytes and yields record batches `bs`, `none` when that open step fails;
`parquetRows` are the rows the parquet reader would yield
(`parquet.NewGenericReader` itself never fails at construction). -/
structure Buffer (α : Type) where
  arrowBatches : Option (List (List α))
  parquetRows : List α
  deriving DecidableEq, Repr

/-- The two `driver.Rows` implementations returned by `PrepareRows`. -/
inductive Rows (α : Type) where
  | arrow (s : ArrowRows α)
  | parquet (s : ParquetRows α)
  deriving DecidableEq, Repr

/-- Method `DriverType.PrepareRows`, src/driver/driver.go:49-66.  The open error of
`ipc.NewFileReader` is represented by a fixed message string. -/
def PrepareRows {α : Type} (d : DriverType) (buf : Buffer α) (bufSize : Int)
    (useUnsafe : Bool) : Except String (Rows α) :=
  if d = ARROW then
    match buf.arrowBatches with
    | none => .error "arrow/ipc: invalid file"
    | some bs => .ok (.arrow (arrowOpen bs))
  else if d = PARQUET then
    .ok (.parquet (parquetOpen buf.parquetRows bufSize useUnsafe))
  else
    .error "Unsupported driver type"

/-- The `connector` struct, src/driver/driver.go:138-144; the external
`*chdb.Session` handle is represented by the session path it was opened
with. -/
structure Connector where
  udfPath : String
  driverType : DriverType
  bufferSize : Int
  useUnsafe : Bool
  sessionPath : Option String
  deriving DecidableEq, Repr

/-- Function `NewConnect`, src/driver/driver.go:180-218.  The external
`chdb.NewSession` call is modelled as always succeeding and recording the
session path. -/
def NewConnect (opts : List (String × String)) : Connector :=
  { sessionPath := opts.lookup sessionOptionKey
    driverType :=
      match opts.lookup driverTypeKey with
      | some s => parseDriverType s
      | none => ARROW
    bufferSize :=
      match opts.lookup driverBufferSizeKey with
      | some s =>
        match atoi s with
        | some n => n
        | none => defaultBufferSize
      | none => defaultBufferSize
    useUnsafe :=
      match opts.lookup useUnsafeStringReaderKey with
      | some s => toLowerStr s = "true"
      | none => false
    udfPath := (opts.lookup udfPathOptionKey).getD "" }

/-- Type `LocalResult` of the external chdbstable package: its `Buf()` method
returns a byte slice that may be nil (`none`). -/
structure LocalResult (α : Type) where
  buf : Option (Buffer α)

/-- The `conn` struct, src/driver/driver.go:240-247.  `queryFun` is the query
handle installed by `SetupQueryFun` (the external engine `Query` function,
session-bound or stateless); `interpolate` is the external
`sqlbuilder.ClickHouse.Interpolate` collaborator used by
`compileArguments`.  `β` is the type of SQL argument values. -/
structure Conn (α β : Type) where
  udfPath : String
  driverType : DriverType
  bufferSize : Int
  useUnsafe : Bool
  queryFun : String → String → String → Except String (LocalResult α)
  interpolate : String → List β → Except String String

/-- Method `connector.Connect`, src/driver/driver.go:147-158: rejects the INVALID
driver type, otherwise copies the connector's configuration into a
connection.  `qf` and `interp` stand for the external collaborators wired in
by `SetupQueryFun` and the argument interpolator. -/
def Connect {α β : Type}
    (qf : String → String → String → Except String (LocalResult α))
    (interp : String → List β → Except String String)
    (c : Connector) : Except String (Conn α β) :=
  if c.driverType = INVALID then .error "DriverType not supported"
  else
    .ok { udfPath := c.udfPath, driverType := c.driverType,
          bufferSize := c.bufferSize, useUnsafe := c.useUnsafe,
          queryFun := qf, interpolate := interp }

/-- Method `conn.compileArguments`, src/driver/driver.go:308-324. -/
def compileArguments {α β : Type} (c : Conn α β) (query : String)
    (args : List β) : Except String String :=
  if 0 < args.length then c.interpolate query args else .ok query

/-- Method `conn.QueryContext`, src/driver/driver.go:326-342: compile the arguments,
run the engine, fail with message "result is nil" when the result's byte
buffer is nil, otherwise hand the buffer to `PrepareRows`. -/
def QueryContext {α β : Type} (c : Conn α β) (query : String) (args : List β) :
    Except String (Rows α) :=
  match compileArguments c query args with
  | .error e => .error e
  | .ok compiledQuery =>
    match c.queryFun compiledQuery (driverTypeString c.driverType) c.udfPath with
    | .error e => .error e
    | .ok result =>
      match result.buf with
      | none => .error "result is nil"
      | some buf => PrepareRows c.driverType buf c.bufferSize c.useUnsafe

/-- The `execResult` struct, src/driver/driver.go:118-120. -/
structure ExecResultT where
  err : Option String
  deriving DecidableEq, Repr

/-- Method `execResult.LastInsertId`, src/driver/driver.go:122-128: returns the
stored error if any, else `-1` with a "does not support" error. -/
def lastInsertId (e : ExecResultT) : Int × Option String :=
  match e.err with
  | some m => (0, some m)
  | none => (-1, some "does not support LastInsertId")

/-- Method `execResult.RowsAffected`, src/driver/driver.go:129-134. -/
def rowsAffected (e : ExecResultT) : Int × Option String :=
  match e.err with
  | some m => (0, some m)
  | none => (-1, some "does not support RowsAffected")

/-- Method `conn.ExecContext`, src/driver/driver.go:284-292: runs the query path,
swallows exactly the error whose message string-compares equal to
"result is nil", and on success returns an `execResult` with a nil stored
error. -/
def ExecContext {α β : Type} (c : Conn α β) (query : String) (args : List β) :
    Except String ExecResultT :=
  match QueryContext c query args with
  | .error e => if e = "result is nil" then .ok { err := none } else .error e
  | .ok _ => .ok { err := none }

/-- C5: for every driver-type tag other than ARROW and PARQUET, `PrepareRows`
fails immediately with the unsupported-format error, and its outcome is
independent of the result buffer — the buffer is never opened or read. -/
theorem prepareRows_unknown_format_fails {α : Type} (d : DriverType)
    (buf buf2 : Buffer α) (bufSize : Int) (u : Bool)
    (hA : d ≠ ARROW) (hP : d ≠ PARQUET) :
    PrepareRows d buf bufSize u = .error "Unsupported driver type" ∧
    PrepareRows d buf bufSize u = PrepareRows d buf2 bufSize u := by
  constructor <;> simp [PrepareRows, hA, hP]

/-- Witness for C5 at the INVALID tag, over two arbitrary distinct buffers. -/
theorem prepareRows_unknown_format_fails_witness :
    PrepareRows (α := Int) INVALID ⟨none, []⟩ 512 false
        = .error "Unsupported driver type" ∧
    PrepareRows (α := Int) INVALID ⟨none, []⟩ 512 false
        = PrepareRows (α := Int) INVALID ⟨some [[1]], [2]⟩ 512 false :=
  prepareRows_unknown_format_fails INVALID ⟨none, []⟩ ⟨some [[1]], [2]⟩ 512 false
    (by decide) (by decide)

/-- C8: constructing a cursor for the PARQUET (file) format always yields a
`parquetRows` cursor whose `needNewBuffer` flag starts `true`, with zero
reads issued and an empty staging buffer — nothing is decoded from the
result buffer before the first `Next` call. -/
theorem prepareRows_parquet_initial_needRefill {α : Type} (buf : Buffer α)
    (bufSize : Int) (u : Bool) :
    ∃ s : ParquetRows α,
      PrepareRows PARQUET buf bufSize u = .ok (.parquet s) ∧
      s.needNewBuffer = true ∧ s.reads = 0 ∧ s.staging = [] :=
  ⟨parquetOpen buf.parquetRows bufSize u, rfl, rfl, rfl, rfl⟩

/-- C6: a query whose engine result carries a nil byte buffer makes
`QueryContext` fail with the exact message "result is nil", and `ExecContext`
succeeds precisely when `QueryContext` either succeeds or fails with exactly
that message — the two outcomes are separated only by this string
comparison. -/
theorem query_nil_buffer_and_exec_success {α β : Type} (c : Conn α β)
    (q : String) (args : List β) :
    (∀ cq res, compileArguments c q args = .ok cq →
      c.queryFun cq (driverTypeString c.driverType) c.udfPath = .ok res →
      res.buf = none →
      QueryContext c q args = .error "result is nil") ∧
    ((∃ er, ExecContext c q args = .ok er) ↔
      ((∃ r, QueryContext c q args = .ok r) ∨
        QueryContext c q args = .error "result is nil")) := by
  constructor
  · intro cq res h1 h2 h3
    simp [QueryContext, h1, h2, h3]
  · unfold ExecContext
    cases hq : QueryContext c q args with
    | ok r => simp
    | error e =>
      by_cases he : e = "result is nil"
      · simp [he]
      · simp [he]

/-- A connection whose engine always returns a result with a nil byte
buffer; used to exercise the "result is nil" path at a concrete input. -/
def connNilResult : Conn Int Unit :=
  { udfPath := "", driverType := ARROW, bufferSize := 512, useUnsafe := false,
    queryFun := fun _ _ _ => .ok { buf := none },
    interpolate := fun q _ => .ok q }

/-- Witness for C6: against an engine returning a nil buffer, the query path
fails with "result is nil" while the exec path succeeds. -/
theorem query_nil_buffer_and_exec_success_witness :
    QueryContext connNilResult "SELECT 1" [] = .error "result is nil" ∧
    (∃ er, ExecContext connNilResult "SELECT 1" [] = .ok er) := by
  have h := query_nil_buffer_and_exec_success connNilResult "SELECT 1" []
  have hq := h.1 "SELECT 1" { buf := none } rfl rfl rfl
  exact ⟨hq, h.2.mpr (.inr hq)⟩

/-- C7 counterexample to the claim as stated: the option value "-1" parses
successfully under `strconv.Atoi`, so the connector stores a staging capacity
of `-1` — not a positive integer. -/
theorem bufferSize_not_positive_counterexample :
    (NewConnect [(driverBufferSizeKey, "-1")]).bufferSize = -1 ∧
    ¬ 0 < (NewConnect [(driverBufferSizeKey, "-1")]).bufferSize := by
  constructor
  · rfl
  · decide

/-- C7 amended: the default of 512 is applied exactly when the bufferSize
option is absent or non-numeric; when the value parses as an integer it is
used verbatim — including zero and negative values, so positivity is not
enforced. -/
theorem bufferSize_default_or_verbatim (opts : List (String × String)) :
    ((opts.lookup driverBufferSizeKey).bind atoi = none →
      (NewConnect opts).bufferSize = defaultBufferSize) ∧
    (∀ n : Int, (opts.lookup driverBufferSizeKey).bind atoi = some n →
      (NewConnect opts).bufferSize = n) := by
  constructor
  · intro h
    cases hl : opts.lookup driverBufferSizeKey with
    | none => simp [NewConnect, hl]
    | some s =>
      rw [hl] at h
      simp only [Option.some_bind] at h
      simp [NewConnect, hl, h]
  · intro n h
    cases hl : opts.lookup driverBufferSizeKey with
    | none => rw [hl] at h; simp at h
    | some s =>
      rw [hl] at h
      simp only [Option.some_bind] at h
      simp [NewConnect, hl, h]

/-- Witness for the amended C7: absent option and the non-numeric value
"1024x" both give 512; the numeric value "-1" is used verbatim. -/
theorem bufferSize_default_or_verbatim_witness :
    (NewConnect []).bufferSize = defaultBufferSize ∧
    (NewConnect [(driverBufferSizeKey, "-1")]).bufferSize = -1 ∧
    (NewConnect [(driverBufferSizeKey, "1024x")]).bufferSize = defaultBufferSize :=
  ⟨(bufferSize_default_or_verbatim []).1 rfl,
    (bufferSize_default_or_verbatim [(driverBufferSizeKey, "-1")]).2 (-1) rfl,
    (bufferSize_default_or_verbatim [(driverBufferSizeKey, "1024x")]).1 rfl⟩

/-- C9: with no driverType option the connector defaults to ARROW; an
unparseable driverType value yields INVALID; and `Connect` rejects INVALID,
so every successfully connected session uses ARROW or PARQUET. -/
theorem driverType_default_and_invalid_rejected {α β : Type}
    (opts : List (String × String))
    (qf : String → String → String → Except String (LocalResult α))
    (interp : String → List β → Except String String) :
    (opts.lookup driverTypeKey = none → (NewConnect opts).driverType = ARROW) ∧
    (∀ s, opts.lookup driverTypeKey = some s →
      toUpperStr s ≠ "ARROW" → toUpperStr s ≠ "PARQUET" →
      (NewConnect opts).driverType = INVALID) ∧
    (∀ c : Conn α β, Connect qf interp (NewConnect opts) = .ok c →
      c.driverType = ARROW ∨ c.driverType = PARQUET) := by
  refine ⟨?_, ?_, ?_⟩
  · intro h
    simp [NewConnect, h]
  · intro s h h1 h2
    simp [NewConnect, h, parseDriverType, h1, h2]
  · intro c hc
    have hdt : (NewConnect opts).driverType = ARROW ∨
        (NewConnect opts).driverType = PARQUET ∨
        (NewConnect opts).driverType = INVALID := by
      cases hl : opts.lookup driverTypeKey with
      | none => left; simp [NewConnect, hl]
      | some s =>
        by_cases h1 : toUpperStr s = "ARROW"
        · left; simp [NewConnect, hl, parseDriverType, h1]
        · by_cases h2 : toUpperStr s = "PARQUET"
          · right; left; simp [NewConnect, hl, parseDriverType, h1, h2]
          · right; right; simp [NewConnect, hl, parseDriverType, h1, h2]
    unfold Connect at hc
    by_cases hi : (NewConnect opts).driverType = INVALID
    · rw [if_pos hi] at hc
      cases hc
    · rw [if_neg hi] at hc
      injection hc with h2
      have hcd : c.driverType = (NewConnect opts).driverType := by rw [← h2]
      rcases hdt with h | h | h
      · exact Or.inl (hcd.trans h)
      · exact Or.inr (hcd.trans h)
      · exact absurd h hi

/-- A stub engine handle, standing in for the external `chdb.Query`. -/
def qfStub : String → String → String → Except String (LocalResult Int) :=
  fun _ _ _ => .error "no engine"

/-- A stub argument interpolator returning the query unchanged. -/
def interpStub : String → List Unit → Except String String :=
  fun q _ => .ok q

/-- The connection produced by `Connect` from the default connector. -/
def connDefault : Conn Int Unit :=
  { udfPath := "", driverType := ARROW, bufferSize := 512, useUnsafe := false,
    queryFun := qfStub, interpolate := interpStub }

/-- Witness for C9: empty options default to ARROW and connect successfully;
the unparseable value "json" yields INVALID. -/
theorem driverType_default_and_invalid_rejected_witness :
    (NewConnect []).driverType = ARROW ∧
    (NewConnect [(driverTypeKey, "csv")]).driverType = INVALID ∧
    (connDefault.driverType = ARROW ∨ connDefault.driverType = PARQUET) := by
  have h1 := driverType_default_and_invalid_rejected (α := Int) (β := Unit)
    [] qfStub interpStub
  have h2 := driverType_default_and_invalid_rejected (α := Int) (β := Unit)
    [(driverTypeKey, "csv")] qfStub interpStub
  exact ⟨h1.1 rfl, h2.2.1 "csv" rfl (by decide) (by decide),
    h1.2.2 connDefault rfl⟩

/-- C10: whenever the exec path succeeds, the result it returns answers both
`LastInsertId` and `RowsAffected` with value `-1` and a "does not support"
error — it never reports a real insert id or row count. -/
theorem exec_result_never_reports_counts {α β : Type} (c : Conn α β)
    (q : String) (args : List β) (er : ExecResultT)
    (h : ExecContext c q args = .ok er) :
    lastInsertId er = (-1, some "does not support LastInsertId") ∧
    rowsAffected er = (-1, some "does not support RowsAffected") := by
  have he : er = { err := none } := by
    unfold ExecContext at h
    cases hq : QueryContext c q args with
    | ok r =>
      rw [hq] at h
      simp only at h
      injection h with h2
      exact h2.symm
    | error e =>
      rw [hq] at h
      simp only at h
      by_cases hee : e = "result is nil"
      · rw [if_pos hee] at h
        injection h with h2
        exact h2.symm
      · rw [if_neg hee] at h
        cases h
  subst he
  exact ⟨rfl, rfl⟩

/-- Witness for C10 on a successful exec against the nil-buffer engine. -/
theorem exec_result_never_reports_counts_witness :
    lastInsertId { err := none } = (-1, some "does not support LastInsertId") ∧
    rowsAffected { err := none } = (-1, some "does not support RowsAffected") :=
  exec_result_never_reports_counts connNilResult "q" [] { err := none } rfl

end Chdb
